import Mathlib

/-!
Verification of the ChatGLM client adapter
(`libs/langchain/langchain/llms/chatglm.py`).

We shallowly embed the data model and the `_call` operation of the
`ChatGLM` class.  JSON values are modelled by the inductive `JValue`
(JSON numbers are carried as rationals; the source performs no numeric
arithmetic, so the float/rational distinction is unobservable in every
property considered here).  Python dictionaries are modelled as ordered
association lists with Python's `dict.update` semantics (`dictSet`,
`dictUpdate`).  The environment of a call (availability of the external
`zhipuai` signing library, and the outcome of the single HTTP POST) is
an explicit parameter `Env`; the external `jwt_token.generate_token`
function is opaque in the source and influences nothing observed by the
properties below, so it is not modelled beyond being assumed to return.
-/

/-- A JSON value, as produced by `response.json()` in the source. -/
inductive JValue where
  | null : JValue
  | bool (b : Bool) : JValue
  | num (q : Rat) : JValue
  | str (s : String) : JValue
  | arr (xs : List JValue) : JValue
  | obj (fields : List (String × JValue)) : JValue

/-- First-occurrence lookup in an association list: Python `d[k]` /
`k in d` semantics for a dict whose insertion history never created a
duplicate key (our `dictSet` below preserves that invariant). -/
def dictGet (d : List (String × JValue)) (k : String) : Option JValue :=
  (d.find? (fun p => p.1 = k)).map (fun p => p.2)

/-- Python `d[k] = v`: replace in place when the key exists, append
otherwise (insertion order preserved, as for Python 3.7+ dicts). -/
def dictSet (d : List (String × JValue)) (k : String) (v : JValue) :
    List (String × JValue) :=
  if d.any (fun p => p.1 = k) then
    d.map (fun p => if p.1 = k then (k, v) else p)
  else d ++ [(k, v)]

/-- Python `d.update(e)`: fold `dictSet` over `e` in order. -/
def dictUpdate (d e : List (String × JValue)) : List (String × JValue) :=
  e.foldl (fun acc p => dictSet acc p.1 p.2) d

/-- The exceptions `_call` can raise, one constructor per raise site of
the source (plus the built-in exceptions that escape from the subscript
chain `parsed_response["data"]["choices"][0]["content"]`, which the
`except requests.exceptions.JSONDecodeError` clause does not catch):

* `dependencyMiss` — line 94, `Exception("Must install zhipuai, ...")`;
* `apiKeyMissing` — line 96, `Exception("api_key not provided, ...")`;
* `transportErr` — line 119, `ValueError("Error raised by inference endpoint: ...")`;
* `upstreamErr` — line 124, `ValueError(f"Failed with response: {response}")`:
  the f-string embeds the `requests.Response` repr `<Response [status]>`,
  so the raised exception carries the status code but not the body
  (unlike line 141, which embeds `response.text`);
* `jsonDecodeErr` — line 139, `ValueError("Error raised during decoding response ...")`;
* `noContent` — line 134, `ValueError("No content in response : ...")`;
* `unexpectedType` — line 136, `ValueError("Unexpected response type: ...")`;
* `keyError`, `typeError`, `indexError` — Python built-ins escaping
  uncaught from the subscript chain on line 132 (or from
  `enforce_stop_tokens` applied to a non-string). -/
inductive PyError where
  | dependencyMiss : PyError
  | apiKeyMissing : PyError
  | transportErr : PyError
  | upstreamErr (status : Nat) : PyError
  | jsonDecodeErr (raw : String) : PyError
  | noContent : PyError
  | unexpectedType : PyError
  | keyError : PyError
  | typeError : PyError
  | indexError : PyError

/-- The spec's taxonomy (§7) names `ResponseParseError` for "malformed
JSON or unexpected shape"; in the source these are exactly the three
`ValueError`s raised by the parsing stage (lines 134, 136, 139). -/
def PyError.isResponseParseErr : PyError → Bool
  | .jsonDecodeErr _ => true
  | .noContent => true
  | .unexpectedType => true
  | _ => false

/-- Python subscript `v[k]` with a string key: a dict looks the key up
(`KeyError` when absent); strings, lists and scalars raise `TypeError`
(string/list indices must be integers; scalars are not subscriptable). -/
def pyIndexStr (v : JValue) (k : String) : Except PyError JValue :=
  match v with
  | .obj fields =>
      match dictGet fields k with
      | some w => .ok w
      | none => .error .keyError
  | _ => .error .typeError

/-- Python subscript `v[n]` with an integer index: a list yields the
element or `IndexError`; a string yields the one-character string or
`IndexError`; a dict from `response.json()` has only string keys, so an
integer key raises `KeyError`; scalars raise `TypeError`. -/
def pyIndexNat (v : JValue) (n : Nat) : Except PyError JValue :=
  match v with
  | .arr xs =>
      match xs.get? n with
      | some x => .ok x
      | none => .error .indexError
  | .str s =>
      match s.data.get? n with
      | some c => .ok (.str (String.mk [c]))
      | none => .error .indexError
  | .obj _ => .error .keyError
  | _ => .error .typeError

/-- The `ChatGLM` pydantic model's fields, with the source's defaults
(lines 28-47).  `temperature`/`top_p` are the source's floats `0.1` and
`0.7`, carried as rationals; `history` entries are JSON values (the
source's `List[List]`). -/
structure ChatGLM where
  endpoint_url : String := "http://127.0.0.1:8000/"
  api_key : String := ""
  model_kwargs : Option (List (String × JValue)) := none
  max_token : Int := 20000
  temperature : Rat := 1/10
  history : List JValue := []
  top_p : Rat := 7/10
  with_history : Bool := false
  return_type : Option String := some "text"

/-- `_identifying_params` (lines 53-60): the double-splat merge of the
two singleton dicts, with `model_kwargs` defaulted to `{}`. -/
def ChatGLM.identifying_params (self : ChatGLM) : List (String × JValue) :=
  let _model_kwargs := self.model_kwargs.getD []
  dictUpdate [("endpoint_url", .str self.endpoint_url)]
    [("model_kwargs", .obj _model_kwargs)]

/-- Outcome of the single `requests.post` of a call: either the request
raised a `requests.exceptions.RequestException`, or a response arrived
with a status code, a JSON parse result (`none` models a body on which
`response.json()` raises `JSONDecodeError`) and the raw body text. -/
inductive HttpOutcome where
  | requestException : HttpOutcome
  | ok (status : Nat) (json : Option JValue) (text : String) : HttpOutcome

/-- The external world a call runs against: whether
`from zhipuai.utils import jwt_token` succeeds, and what the HTTP POST
returns. -/
structure Env where
  zhipuai_available : Bool
  http : HttpOutcome

/-- Result of a call: the returned value or raised error, the state of
the client afterwards (`self.history` is its only mutable field), and
the payload handed to `requests.post` (`none` when the call failed
before any network call was issued). -/
structure CallOutcome where
  result : Except PyError JValue
  state : ChatGLM
  posted : Option (List (String × JValue))

/-- Does a pattern lead (occur as a prefix of) a character list? -/
def leadsWith : List Char → List Char → Bool
  | [], _ => true
  | _ :: _, [] => false
  | p :: ps, t :: ts => (p == t) && leadsWith ps ts

/-- Index (counting from `i`) of the first position of `t` at which `p`
leads, if any. -/
def firstOccurAux (p : List Char) : List Char → Nat → Option Nat
  | [], i => if leadsWith p [] then some i else none
  | c :: rest, i =>
      if leadsWith p (c :: rest) then some i
      else firstOccurAux p rest (i + 1)

/-- Start index of the first occurrence of `p` in `t`, if any. -/
def strFindFirst (t p : String) : Option Nat :=
  firstOccurAux p.data t.data 0

/-- Minimum of a list of naturals, `none` on the empty list. -/
def minList : List Nat → Option Nat
  | [] => none
  | i :: rest =>
      match minList rest with
      | none => some i
      | some j => some (min i j)

/-- Modelled from the spec: `enforce_stop_tokens` lives in
`langchain/llms/utils.py`, which is not part of the provided sources;
per §4.1 step 8 it truncates the text at the first occurrence of any
stop marker — "earliest-position policy: scan all markers, cut at the
minimum index found, discard everything from that index onward; if none
found, return text unchanged". -/
def enforce_stop_tokens (text : String) (stop : List String) : String :=
  match minList (stop.filterMap (fun m => strFindFirst text m)) with
  | none => text
  | some i => String.mk (text.data.take i)

/-- Lines 144-145 of the source: trimming is skipped when `stop` is
`None`; `enforce_stop_tokens` applied to a non-string extracted value
would raise a `TypeError` inside the regex machinery. -/
def applyStop (textV : JValue) : Option (List String) → Except PyError JValue
  | none => .ok textV
  | some ss =>
      match textV with
      | .str s => .ok (.str (enforce_stop_tokens s ss))
      | _ => .error .typeError

/-- The dict literal of lines 102-109: the six built-in payload
fields. -/
def defaultPayloadFields (self : ChatGLM) (prompt : String) :
    List (String × JValue) :=
  [("prompt", .str prompt),
   ("temperature", .num self.temperature),
   ("history", .arr self.history),
   ("max_length", .num (self.max_token : Rat)),
   ("top_p", .num self.top_p),
   ("return_type",
     match self.return_type with
     | none => .null
     | some s => .str s)]

/-- The payload of lines 102-111: the six built-in fields, then
`payload.update(_model_kwargs)`, then `payload.update(kwargs)`. -/
def buildPayload (self : ChatGLM) (prompt : String)
    (kwargs : List (String × JValue)) : List (String × JValue) :=
  let _model_kwargs := self.model_kwargs.getD []
  dictUpdate (dictUpdate (defaultPayloadFields self prompt) _model_kwargs)
    kwargs

/-- Lines 126-142: the parsing stage, given that `response.json()`
succeeded.  Mirrors the source's `isinstance(parsed_response, dict)`
test, the `"data" in parsed_response` test, and the subscript chain
`parsed_response["data"]["choices"][0]["content"]` evaluated left to
right; returns the `choices` value (reused by the history append on
line 147) together with the extracted content. -/
def extractText (parsed : JValue) : Except PyError (JValue × JValue) :=
  match parsed with
  | .obj fields =>
      match dictGet fields "data" with
      | some dataV =>
          match pyIndexStr dataV "choices" with
          | .error e => .error e
          | .ok choicesV =>
              match pyIndexNat choicesV 0 with
              | .error e => .error e
              | .ok c0 =>
                  match pyIndexStr c0 "content" with
                  | .error e => .error e
                  | .ok contentV => .ok (choicesV, contentV)
      | none => .error .noContent
  | _ => .error .unexpectedType

/-- `ChatGLM._call` (lines 62-149).  The stages in source order:
the `zhipuai` import (line 92), the `api_key` check (line 95), payload
construction (lines 102-111), the POST (line 117) with its
`RequestException` handler (line 119), the status check (line 123),
`response.json()` (line 127) with its `JSONDecodeError` handler
(line 138), shape checking and extraction (lines 129-136),
`enforce_stop_tokens` (lines 144-145), and the history append
(lines 146-147, executed only on `with_history` and only after every
earlier stage succeeded). -/
def ChatGLM.call (env : Env) (self : ChatGLM) (prompt : String)
    (stop : Option (List String)) (kwargs : List (String × JValue)) :
    CallOutcome :=
  if env.zhipuai_available = false then
    ⟨.error .dependencyMiss, self, none⟩
  else if self.api_key = "" then
    ⟨.error .apiKeyMissing, self, none⟩
  else
    let payload := buildPayload self prompt kwargs
    match env.http with
    | .requestException => ⟨.error .transportErr, self, some payload⟩
    | .ok status json text =>
        if status ≠ 200 then
          ⟨.error (.upstreamErr status), self, some payload⟩
        else
          match json with
          | none => ⟨.error (.jsonDecodeErr text), self, some payload⟩
          | some parsed =>
              match extractText parsed with
              | .error e => ⟨.error e, self, some payload⟩
              | .ok (choicesV, contentV) =>
                  match applyStop contentV stop with
                  | .error e => ⟨.error e, self, some payload⟩
                  | .ok t =>
                      if self.with_history then
                        ⟨.ok t,
                         { self with history :=
                             self.history ++ [.arr [.null, choicesV]] },
                         some payload⟩
                      else ⟨.ok t, self, some payload⟩

/-! ## Sample data for concrete instantiations -/

/-- A well-shaped response body with content `"I am a model."`. -/
def goodBody : JValue :=
  .obj [("data", .obj [("choices",
    .arr [.obj [("content", .str "I am a model.")]])])]

/-- An environment where the signing library is importable and the POST
returns 200 with `goodBody`. -/
def goodEnv : Env := ⟨true, .ok 200 (some goodBody) "raw"⟩

/-- A client with a non-empty API key and otherwise default fields. -/
def sampleClient : ChatGLM := { api_key := "k" }

/-- A client carrying both a config-level override (`temperature`) and
a config-level extra key (`extra`), for concrete merge tests. -/
def mergeClient : ChatGLM :=
  { api_key := "k",
    model_kwargs := some [("temperature", .num 5), ("extra", .str "conf")] }

/-- Marker `m` occurs in `t` starting at character index `i`. -/
def occursAt (t m : String) (i : Nat) : Prop :=
  leadsWith m.data (t.data.drop i) = true

/-- The raw `choices` list (`parsed_response["data"]["choices"]`) of
the response carried by an environment, when there is one. -/
def respChoices (env : Env) : Option JValue :=
  match env.http with
  | .ok _ (some (.obj fields)) _ =>
      match dictGet fields "data" with
      | some dataV =>
          match pyIndexStr dataV "choices" with
          | .ok c => some c
          | .error _ => none
      | none => none
  | _ => none

/-- A run of calls: each call feeds its post-state to the next. -/
def runCalls (self : ChatGLM) : List (Env × String) → ChatGLM
  | [] => self
  | (e, p) :: rest => runCalls (ChatGLM.call e self p none []).state rest

def exceptIsOk : Except PyError JValue → Bool
  | .ok _ => true
  | .error _ => false

/-- Every call of the run returns normally. -/
def allOk (self : ChatGLM) : List (Env × String) → Bool
  | [] => true
  | (e, p) :: rest =>
      exceptIsOk (ChatGLM.call e self p none []).result &&
      allOk (ChatGLM.call e self p none []).state rest

/-- A client with history tracking enabled. -/
def histClient : ChatGLM := { api_key := "k", with_history := true }

/-! ## Evaluation lemmas for `ChatGLM.call` -/

/-- A call that reaches the network and sees a non-200 status. -/
theorem call_non200 (env : Env) (self : ChatGLM) (prompt : String)
    (stop : Option (List String)) (kwargs : List (String × JValue))
    (status : Nat) (json : Option JValue) (text : String)
    (hz : env.zhipuai_available = true) (hk : self.api_key ≠ "")
    (hh : env.http = .ok status json text) (hs : status ≠ 200) :
    ChatGLM.call env self prompt stop kwargs =
      ⟨.error (.upstreamErr status), self,
       some (buildPayload self prompt kwargs)⟩ := by
  unfold ChatGLM.call
  rw [hz, hh]
  simp [hk, hs]

/-- A call that reaches the network and receives a well-shaped 200
response: everything downstream of extraction, in one equation. -/
theorem call_success_eval (env : Env) (self : ChatGLM) (prompt : String)
    (stop : Option (List String)) (kwargs : List (String × JValue))
    (fields dataFields c0Fields : List (String × JValue))
    (rest : List JValue) (contentV : JValue) (txt : String)
    (hz : env.zhipuai_available = true) (hk : self.api_key ≠ "")
    (hh : env.http = .ok 200 (some (.obj fields)) txt)
    (hd : dictGet fields "data" = some (.obj dataFields))
    (hc : dictGet dataFields "choices" = some (.arr (.obj c0Fields :: rest)))
    (hcont : dictGet c0Fields "content" = some contentV) :
    ChatGLM.call env self prompt stop kwargs =
      match applyStop contentV stop with
      | .error e => ⟨.error e, self, some (buildPayload self prompt kwargs)⟩
      | .ok t =>
          ⟨.ok t,
           if self.with_history then
             { self with history :=
                 self.history ++ [.arr [.null, .arr (.obj c0Fields :: rest)]] }
           else self,
           some (buildPayload self prompt kwargs)⟩ := by
  unfold ChatGLM.call extractText pyIndexStr pyIndexNat
  rw [hz, hh]
  simp [hk, hd, hc, hcont]
  cases applyStop contentV stop with
  | error e => rfl
  | ok t => cases hw : self.with_history <;> simp [hw]

/-! ## Claims -/

/-- C2 counterexample: the claim says the non-200 failure carries the
response's status and body, but line 124 raises
`ValueError(f"Failed with response: {response}")`, whose message is the
`requests.Response` repr — status only.  Two 500 responses with
different bodies ("boom" vs "other") raise the very same exception, so
the exception cannot carry the body. -/
theorem upstream_error_body_counterexample :
    (ChatGLM.call ⟨true, .ok 500 none "boom"⟩ sampleClient
        "p" none []).result =
      (ChatGLM.call ⟨true, .ok 500 none "other"⟩ sampleClient
        "p" none []).result ∧
    (ChatGLM.call ⟨true, .ok 500 none "boom"⟩ sampleClient
        "p" none []).result = .error (.upstreamErr 500) :=
  ⟨rfl, rfl⟩

/-- C2 (amended): for every response with HTTP status other than 200,
`_call` raises the `UpstreamError` (line 124) carrying the response's
status — the body is not carried, since the message embeds only the
`Response` repr — and the history sequence is unchanged by the call. -/
theorem upstream_error_preserves_history (env : Env) (self : ChatGLM)
    (prompt : String) (stop : Option (List String))
    (kwargs : List (String × JValue))
    (status : Nat) (json : Option JValue) (text : String)
    (hz : env.zhipuai_available = true) (hk : self.api_key ≠ "")
    (hh : env.http = .ok status json text) (hs : status ≠ 200) :
    (ChatGLM.call env self prompt stop kwargs).result =
        .error (.upstreamErr status) ∧
    (ChatGLM.call env self prompt stop kwargs).state.history =
        self.history := by
  rw [call_non200 env self prompt stop kwargs status json text hz hk hh hs]
  exact ⟨rfl, rfl⟩

/-- Witness for the amended C2 at a concrete 500 response. -/
theorem upstream_error_preserves_history_witness :
    (ChatGLM.call ⟨true, .ok 500 none "boom"⟩ sampleClient "p" none []).result =
        .error (.upstreamErr 500) ∧
    (ChatGLM.call ⟨true, .ok 500 none "boom"⟩ sampleClient "p" none []).state.history =
        sampleClient.history :=
  upstream_error_preserves_history ⟨true, .ok 500 none "boom"⟩ sampleClient
    "p" none [] 500 none "boom" rfl (by decide) rfl (by decide)

/-- C3: for every configuration with an empty API key (given the
signing library imports, which the source checks first), `_call` fails
with the `ConfigurationError` (`Exception("api_key not provided ...")`)
and no POST is ever issued. -/
theorem empty_api_key_no_network (env : Env) (self : ChatGLM)
    (prompt : String) (stop : Option (List String))
    (kwargs : List (String × JValue))
    (hz : env.zhipuai_available = true) (hk : self.api_key = "") :
    (ChatGLM.call env self prompt stop kwargs).result =
        .error .apiKeyMissing ∧
    (ChatGLM.call env self prompt stop kwargs).posted = none := by
  unfold ChatGLM.call
  rw [hz, hk]
  exact ⟨rfl, rfl⟩

/-- Witness for C3 at the all-default configuration. -/
theorem empty_api_key_no_network_witness :
    (ChatGLM.call ⟨true, .requestException⟩ {} "p" none []).result =
        .error .apiKeyMissing ∧
    (ChatGLM.call ⟨true, .requestException⟩ {} "p" none []).posted = none :=
  empty_api_key_no_network ⟨true, .requestException⟩ {} "p" none [] rfl rfl

/-- C10: the `zhipuai` import check (line 92) runs before the API-key
check (line 95): with the dependency unavailable every call fails with
`DependencyMissingError` even when the key is empty, and the
`ConfigurationError` is reachable only when the import succeeds. -/
theorem dependency_check_precedes_key_check (env : Env) (self : ChatGLM)
    (prompt : String) (stop : Option (List String))
    (kwargs : List (String × JValue)) :
    (env.zhipuai_available = false →
      (ChatGLM.call env self prompt stop kwargs).result =
          .error .dependencyMiss) ∧
    (env.zhipuai_available = true → self.api_key = "" →
      (ChatGLM.call env self prompt stop kwargs).result =
          .error .apiKeyMissing) ∧
    ((ChatGLM.call env self prompt stop kwargs).result =
          .error .apiKeyMissing →
      env.zhipuai_available = true) := by
  refine ⟨fun hz => ?_, fun hz hk => ?_, fun hres => ?_⟩
  · unfold ChatGLM.call
    rw [hz]
    rfl
  · unfold ChatGLM.call
    rw [hz, hk]
    rfl
  · by_contra hz
    have hz' : env.zhipuai_available = false := by
      cases h : env.zhipuai_available
      · rfl
      · exact absurd h hz
    unfold ChatGLM.call at hres
    rw [hz'] at hres
    simp at hres

/-- Witness for C10: dependency missing and key empty gives the
dependency error, not the configuration error. -/
theorem dependency_check_precedes_key_check_witness :
    (ChatGLM.call ⟨false, .requestException⟩ {} "p" none []).result =
        .error .dependencyMiss :=
  (dependency_check_precedes_key_check ⟨false, .requestException⟩ {}
    "p" none []).1 rfl

/-- C8: `_identifying_params` exposes exactly the two keys
`endpoint_url` and `model_kwargs` (the latter defaulted to the empty
mapping when unset) and nothing else — in particular no `api_key`. -/
theorem identifying_params_exact (self : ChatGLM) :
    (ChatGLM.identifying_params self).map Prod.fst =
        ["endpoint_url", "model_kwargs"] ∧
    dictGet (ChatGLM.identifying_params self) "endpoint_url" =
        some (.str self.endpoint_url) ∧
    dictGet (ChatGLM.identifying_params self) "model_kwargs" =
        some (.obj (self.model_kwargs.getD [])) ∧
    dictGet (ChatGLM.identifying_params self) "api_key" = none :=
  ⟨rfl, rfl, rfl, rfl⟩

/-- C6: a 200 response shaped
`.obj [data ↦ .obj [choices ↦ nonempty list headed by an object whose
"content" is the string s]]`, called with `stop = none`, returns
exactly `s`. -/
theorem success_returns_content (env : Env) (self : ChatGLM)
    (prompt : String) (kwargs : List (String × JValue))
    (fields dataFields c0Fields : List (String × JValue))
    (rest : List JValue) (s txt : String)
    (hz : env.zhipuai_available = true) (hk : self.api_key ≠ "")
    (hh : env.http = .ok 200 (some (.obj fields)) txt)
    (hd : dictGet fields "data" = some (.obj dataFields))
    (hc : dictGet dataFields "choices" = some (.arr (.obj c0Fields :: rest)))
    (hcont : dictGet c0Fields "content" = some (.str s)) :
    (ChatGLM.call env self prompt none kwargs).result = .ok (.str s) := by
  rw [call_success_eval env self prompt none kwargs fields dataFields
    c0Fields rest (.str s) txt hz hk hh hd hc hcont]
  rfl

/-- Witness for C6: the spec's example, prompt `"Who are you?"`,
content `"I am a model."`, `stop = none`. -/
theorem success_returns_content_witness :
    (ChatGLM.call goodEnv sampleClient "Who are you?" none []).result =
        .ok (.str "I am a model.") :=
  success_returns_content goodEnv sampleClient "Who are you?" []
    [("data", .obj [("choices", .arr [.obj [("content", .str "I am a model.")]])])]
    [("choices", .arr [.obj [("content", .str "I am a model.")]])]
    [("content", .str "I am a model.")]
    [] "I am a model." "raw" rfl (by decide) rfl rfl rfl rfl

/-- C1 counterexample: a 200 response whose body is the JSON object
mapping "data" to an empty object — the shape under "data" mismatches
("choices" missing) — makes the call raise the uncaught `KeyError` from
`parsed_response["data"]["choices"]`, which is not one of the parsing
stage's `ValueError`s (the spec's `ResponseParseError`). -/
theorem parse_error_shape_counterexample :
    (ChatGLM.call ⟨true, .ok 200 (some (.obj [("data", .obj [])])) "raw"⟩
        sampleClient "p" none []).result = .error .keyError ∧
    PyError.keyError.isResponseParseErr = false :=
  ⟨rfl, rfl⟩

/-- C1 (amended): for every 200 response whose body parses as JSON, if
the top level is not a mapping or the key "data" is absent, `_call`
raises a `ResponseParseError`; a shape mismatch below "data" instead
escapes as an uncaught `KeyError`/`IndexError`/`TypeError`. -/
theorem top_level_shape_parse_error (env : Env) (self : ChatGLM)
    (prompt : String) (stop : Option (List String))
    (kwargs : List (String × JValue)) (parsed : JValue) (txt : String)
    (hz : env.zhipuai_available = true) (hk : self.api_key ≠ "")
    (hh : env.http = .ok 200 (some parsed) txt)
    (hshape : (∀ fields, parsed ≠ .obj fields) ∨
      (∃ fields, parsed = .obj fields ∧ dictGet fields "data" = none)) :
    ∃ e, (ChatGLM.call env self prompt stop kwargs).result = .error e ∧
      e.isResponseParseErr = true := by
  have hcall : ∀ e, extractText parsed = .error e →
      (ChatGLM.call env self prompt stop kwargs).result = .error e := by
    intro e he
    unfold ChatGLM.call
    rw [hz, hh]
    simp [hk, he]
  rcases hshape with hno | ⟨fields, hobj, hdata⟩
  · refine ⟨.unexpectedType, hcall _ ?_, rfl⟩
    cases parsed with
    | obj fields => exact absurd rfl (hno fields)
    | null => rfl
    | bool b => rfl
    | num q => rfl
    | str s => rfl
    | arr xs => rfl
  · subst hobj
    exact ⟨.noContent, hcall _ (by simp [extractText, hdata]), rfl⟩

/-- Witness for the amended C1 at the spec's example body
`.obj [unexpected ↦ shape]` (missing "data"). -/
theorem top_level_shape_parse_error_witness :
    ∃ e, (ChatGLM.call
        ⟨true, .ok 200 (some (.obj [("unexpected", .str "shape")])) "raw"⟩
        sampleClient "p" none []).result = .error e ∧
      e.isResponseParseErr = true :=
  top_level_shape_parse_error
    ⟨true, .ok 200 (some (.obj [("unexpected", .str "shape")])) "raw"⟩
    sampleClient "p" none [] (.obj [("unexpected", .str "shape")]) "raw"
    rfl (by decide) rfl
    (Or.inr ⟨[("unexpected", .str "shape")], rfl, rfl⟩)

/-! ## Association-list lemmas (Python dict semantics) -/

theorem dictGet_cons (p : String × JValue) (d : List (String × JValue))
    (k : String) :
    dictGet (p :: d) k = if p.1 = k then some p.2 else dictGet d k := by
  by_cases h : p.1 = k <;> simp [dictGet, List.find?_cons, h]

theorem dictSet_cons_ne (p : String × JValue) (rest : List (String × JValue))
    (k : String) (v : JValue) (hp : p.1 ≠ k) :
    dictSet (p :: rest) k v = p :: dictSet rest k v := by
  by_cases h : rest.any (fun q => q.1 = k) <;> simp [dictSet, hp, h]

theorem dictGet_dictSet_self (d : List (String × JValue)) (k : String)
    (v : JValue) :
    dictGet (dictSet d k v) k = some v := by
  induction d with
  | nil => simp [dictSet, dictGet]
  | cons p rest ih =>
    by_cases hp : p.1 = k
    · by_cases h : rest.any (fun q => q.1 = k) <;>
        simp [dictSet, hp, h, dictGet_cons]
    · rw [dictSet_cons_ne p rest k v hp, dictGet_cons]
      simp [hp, ih]

theorem dictGet_map_keep (rest : List (String × JValue)) (k k' : String)
    (v : JValue) (hne : k' ≠ k) :
    dictGet (rest.map (fun q => if q.1 = k then (k, v) else q)) k' =
      dictGet rest k' := by
  induction rest with
  | nil => rfl
  | cons q rs ih =>
    by_cases hq : q.1 = k
    · simp only [List.map_cons, hq, if_pos]
      rw [dictGet_cons, dictGet_cons]
      have h1 : ¬ ((k : String) = k') := fun h => hne h.symm
      have h2 : ¬ (q.1 = k') := by rw [hq]; exact h1
      simp [h1, h2, ih]
    · simp only [List.map_cons, if_neg hq]
      rw [dictGet_cons, dictGet_cons]
      by_cases hq' : q.1 = k' <;> simp [hq', ih]

theorem dictGet_dictSet_ne (d : List (String × JValue)) (k k' : String)
    (v : JValue) (hne : k' ≠ k) :
    dictGet (dictSet d k v) k' = dictGet d k' := by
  have h1 : ¬ ((k : String) = k') := fun h => hne h.symm
  induction d with
  | nil =>
    show dictGet [(k, v)] k' = dictGet [] k'
    rw [dictGet_cons]
    simp [h1]
  | cons p rest ih =>
    by_cases hp : p.1 = k
    · have hcond : ((p :: rest).any (fun q => q.1 = k)) = true := by
        simp [hp]
      have hmap : dictSet (p :: rest) k v =
          (k, v) :: rest.map (fun q => if q.1 = k then (k, v) else q) := by
        unfold dictSet
        rw [if_pos hcond, List.map_cons, if_pos hp]
      have h2 : ¬ (p.1 = k') := by rw [hp]; exact h1
      rw [hmap, dictGet_cons, dictGet_cons, if_neg h1, if_neg h2]
      exact dictGet_map_keep rest k k' v hne
    · rw [dictSet_cons_ne p rest k v hp, dictGet_cons, dictGet_cons]
      by_cases hp' : p.1 = k' <;> simp [hp', ih]

theorem dictGet_eq_none_of_not_mem (d : List (String × JValue)) (k : String)
    (h : k ∉ d.map Prod.fst) : dictGet d k = none := by
  induction d with
  | nil => rfl
  | cons p rest ih =>
    simp only [List.map_cons, List.mem_cons] at h
    push_neg at h
    have h2 : ¬ (p.1 = k) := fun hh => h.1 hh.symm
    rw [dictGet_cons, if_neg h2]
    exact ih h.2

/-- Lookup through `d.update(e)`: the value from `e` wins when the key
is there, otherwise the lookup falls through to `d` (for `e` without
duplicate keys, as for any Python dict). -/
theorem dictGet_dictUpdate (d e : List (String × JValue)) (k : String)
    (he : (e.map Prod.fst).Nodup) :
    dictGet (dictUpdate d e) k =
      match dictGet e k with
      | some v => some v
      | none => dictGet d k := by
  induction e generalizing d with
  | nil => simp [dictUpdate, dictGet]
  | cons p rest ih =>
    have hstep : dictUpdate d (p :: rest) =
        dictUpdate (dictSet d p.1 p.2) rest := rfl
    simp only [List.map_cons, List.nodup_cons] at he
    rw [hstep, ih _ he.2, dictGet_cons]
    by_cases hk : p.1 = k
    · have hnone : dictGet rest k = none := by
        apply dictGet_eq_none_of_not_mem
        rw [← hk]
        exact he.1
      rw [hnone, hk]
      simp [dictGet_dictSet_self]
    · have hne : k ≠ p.1 := fun h => hk h.symm
      rw [dictGet_dictSet_ne d p.1 k p.2 hne]
      simp [hk]

/-- Whatever path a call takes, the only payload it can hand to
`requests.post` is the one of lines 102-111. -/
theorem call_posted_eq (env : Env) (self : ChatGLM) (prompt : String)
    (stop : Option (List String)) (kwargs : List (String × JValue)) :
    (ChatGLM.call env self prompt stop kwargs).posted = none ∨
    (ChatGLM.call env self prompt stop kwargs).posted =
      some (buildPayload self prompt kwargs) := by
  unfold ChatGLM.call
  repeat' split
  all_goals first
  | exact Or.inl rfl
  | exact Or.inr rfl


/-- C7: every payload a call posts is the six built-in default fields
overridden by the config-level `model_kwargs`, overridden in turn by
the per-call keyword arguments: on any key, the per-call value wins
over the config value, which wins over the default. -/
theorem payload_merge_precedence (self : ChatGLM) (prompt : String)
    (kwargs : List (String × JValue)) (k : String) (env : Env)
    (stop : Option (List String)) (pl : List (String × JValue))
    (hmk : ((self.model_kwargs.getD []).map Prod.fst).Nodup)
    (hkw : (kwargs.map Prod.fst).Nodup)
    (hposted : (ChatGLM.call env self prompt stop kwargs).posted = some pl) :
    dictGet pl k =
      match dictGet kwargs k with
      | some v => some v
      | none =>
          match dictGet (self.model_kwargs.getD []) k with
          | some v => some v
          | none => dictGet (defaultPayloadFields self prompt) k := by
  have hpl : pl = buildPayload self prompt kwargs := by
    rcases call_posted_eq env self prompt stop kwargs with h | h
    · rw [h] at hposted
      exact absurd hposted (by simp)
    · rw [h] at hposted
      exact (Option.some_injective _ hposted).symm
  subst hpl
  unfold buildPayload
  rw [dictGet_dictUpdate _ kwargs k hkw,
    dictGet_dictUpdate _ (self.model_kwargs.getD []) k hmk]

/-- Witness for C7: with `mergeClient`'s config overrides and a
per-call override of the key `extra`, the per-call value wins. -/
theorem payload_merge_precedence_witness :
    dictGet (buildPayload mergeClient "p" [("extra", .str "call")]) "extra" =
      some (.str "call") := by
  rw [payload_merge_precedence mergeClient "p" [("extra", .str "call")]
    "extra" goodEnv none _ (by decide) (by decide) rfl]
  rfl

/-! ## Stop-marker truncation (spec §4.1 step 8) -/


theorem firstOccurAux_some (p t : List Char) (i j : Nat)
    (h : firstOccurAux p t i = some j) :
    ∃ d, j = i + d ∧ leadsWith p (t.drop d) = true ∧
      ∀ k < d, leadsWith p (t.drop k) = false := by
  induction t generalizing i with
  | nil =>
    unfold firstOccurAux at h
    by_cases hl : leadsWith p [] = true
    · rw [if_pos hl] at h
      injection h with h
      exact ⟨0, by omega, hl, fun k hk => absurd hk (Nat.not_lt_zero k)⟩
    · rw [if_neg hl] at h
      cases h
  | cons c rest ih =>
    unfold firstOccurAux at h
    by_cases hl : leadsWith p (c :: rest) = true
    · rw [if_pos hl] at h
      injection h with h
      exact ⟨0, by omega, hl, fun k hk => absurd hk (Nat.not_lt_zero k)⟩
    · rw [if_neg hl] at h
      obtain ⟨d, hd, hocc, hmin⟩ := ih (i + 1) h
      refine ⟨d + 1, by omega, by simpa using hocc, ?_⟩
      intro k hk
      cases k with
      | zero =>
        cases hb : leadsWith p (c :: rest) with
        | false => simpa using hb
        | true => exact absurd hb hl
      | succ k' => simpa using hmin k' (by omega)

theorem firstOccurAux_none (p t : List Char) (i : Nat)
    (h : firstOccurAux p t i = none) :
    ∀ d, leadsWith p (t.drop d) = false := by
  induction t generalizing i with
  | nil =>
    intro d
    rw [List.drop_nil]
    unfold firstOccurAux at h
    cases hb : leadsWith p [] with
    | false => rfl
    | true => rw [if_pos hb] at h; cases h
  | cons c rest ih =>
    intro d
    unfold firstOccurAux at h
    cases hb : leadsWith p (c :: rest) with
    | true => rw [if_pos hb] at h; cases h
    | false =>
      rw [if_neg (by simp [hb])] at h
      cases d with
      | zero => simpa using hb
      | succ d' => simpa using ih (i + 1) h d'

theorem minList_eq_none (l : List Nat) (h : minList l = none) : l = [] := by
  cases l with
  | nil => rfl
  | cons i rest =>
    unfold minList at h
    cases hr : minList rest <;> rw [hr] at h <;> simp at h

theorem minList_spec (l : List Nat) (m : Nat) (h : minList l = some m) :
    m ∈ l ∧ ∀ x ∈ l, m ≤ x := by
  induction l generalizing m with
  | nil => cases h
  | cons i rest ih =>
    unfold minList at h
    cases hr : minList rest with
    | none =>
      rw [hr] at h
      injection h with h
      subst h
      rw [minList_eq_none rest hr]
      exact ⟨by simp, by simp⟩
    | some j =>
      rw [hr] at h
      injection h with h
      subst h
      obtain ⟨hjmem, hjmin⟩ := ih j hr
      constructor
      · rcases Nat.le_total i j with hij | hij
        · rw [Nat.min_eq_left hij]
          exact List.mem_cons_self i rest
        · rw [Nat.min_eq_right hij]
          exact List.mem_cons_of_mem i hjmem
      · intro x hx
        rcases List.mem_cons.mp hx with h1 | h1
        · rw [h1]
          exact Nat.min_le_left i j
        · exact le_trans (Nat.min_le_right i j) (hjmin x h1)

/-- When some stop marker occurs in the text, the modelled
`enforce_stop_tokens` truncates at the earliest occurring marker's
start index. -/
theorem enforce_stop_tokens_found (text : String) (stop : List String)
    (hocc : ∃ m ∈ stop, ∃ i, occursAt text m i) :
    ∃ j, enforce_stop_tokens text stop = String.mk (text.data.take j) ∧
      (∃ m ∈ stop, occursAt text m j) ∧
      ∀ k < j, ∀ m ∈ stop, ¬ occursAt text m k := by
  obtain ⟨m, hm, i, hi⟩ := hocc
  have hne : strFindFirst text m ≠ none := by
    intro hn
    have hf := firstOccurAux_none m.data text.data 0 hn i
    unfold occursAt at hi
    rw [hf] at hi
    cases hi
  obtain ⟨j₀, hj₀⟩ := Option.ne_none_iff_exists'.mp hne
  have hmem : j₀ ∈ stop.filterMap (fun w => strFindFirst text w) :=
    List.mem_filterMap.mpr ⟨m, hm, hj₀⟩
  obtain ⟨j, hj⟩ : ∃ j,
      minList (stop.filterMap (fun w => strFindFirst text w)) = some j := by
    cases hml : minList (stop.filterMap (fun w => strFindFirst text w)) with
    | none =>
      rw [minList_eq_none _ hml] at hmem
      cases hmem
    | some j => exact ⟨j, rfl⟩
  obtain ⟨hjmem, hjmin⟩ := minList_spec _ j hj
  refine ⟨j, ?_, ?_, ?_⟩
  · unfold enforce_stop_tokens
    rw [hj]
  · obtain ⟨m', hm', hfind⟩ := List.mem_filterMap.mp hjmem
    obtain ⟨d, hd, hocc', _⟩ := firstOccurAux_some m'.data text.data 0 j hfind
    refine ⟨m', hm', ?_⟩
    unfold occursAt
    rw [show j = d from by omega]
    exact hocc'
  · intro k hk m' hm' hocck
    have hne' : strFindFirst text m' ≠ none := by
      intro hn
      have hf := firstOccurAux_none m'.data text.data 0 hn k
      unfold occursAt at hocck
      rw [hf] at hocck
      cases hocck
    obtain ⟨j', hj'⟩ := Option.ne_none_iff_exists'.mp hne'
    obtain ⟨d', hd', _, hmin'⟩ := firstOccurAux_some m'.data text.data 0 j' hj'
    have hj'le : j' ≤ k := by
      by_contra hlt
      push_neg at hlt
      have hfk := hmin' k (by omega)
      unfold occursAt at hocck
      rw [hfk] at hocck
      cases hocck
    have hjj' : j ≤ j' :=
      hjmin j' (List.mem_filterMap.mpr ⟨m', hm', hj'⟩)
    omega

/-- When no stop marker occurs, the modelled `enforce_stop_tokens`
returns the text unchanged. -/
theorem enforce_stop_tokens_not_found (text : String) (stop : List String)
    (h : ∀ m ∈ stop, ∀ i, ¬ occursAt text m i) :
    enforce_stop_tokens text stop = text := by
  have hfm : stop.filterMap (fun w => strFindFirst text w) = [] := by
    rw [List.filterMap_eq_nil_iff]
    intro m hm
    cases hf : strFindFirst text m with
    | none => rfl
    | some j =>
      obtain ⟨d, hd, hocc, _⟩ := firstOccurAux_some m.data text.data 0 j hf
      exact absurd hocc (h m hm d)
  unfold enforce_stop_tokens
  rw [hfm]
  rfl

/-- C4: with stop markers supplied, a successful call returns the
extracted text truncated at the start index of the earliest occurring
marker (everything from that index onward discarded); when no marker
occurs, the text is returned unchanged. -/
theorem stop_marker_truncation (env : Env) (self : ChatGLM)
    (prompt : String) (kwargs : List (String × JValue))
    (stop : List String)
    (fields dataFields c0Fields : List (String × JValue))
    (rest : List JValue) (T txt : String)
    (hz : env.zhipuai_available = true) (hk : self.api_key ≠ "")
    (hh : env.http = .ok 200 (some (.obj fields)) txt)
    (hd : dictGet fields "data" = some (.obj dataFields))
    (hc : dictGet dataFields "choices" = some (.arr (.obj c0Fields :: rest)))
    (hcont : dictGet c0Fields "content" = some (.str T)) :
    ((∃ m ∈ stop, ∃ i, occursAt T m i) →
      ∃ j, (ChatGLM.call env self prompt (some stop) kwargs).result =
            .ok (.str (String.mk (T.data.take j))) ∧
        (∃ m ∈ stop, occursAt T m j) ∧
        ∀ k < j, ∀ m ∈ stop, ¬ occursAt T m k) ∧
    ((∀ m ∈ stop, ∀ i, ¬ occursAt T m i) →
      (ChatGLM.call env self prompt (some stop) kwargs).result =
        .ok (.str T)) := by
  have hres : (ChatGLM.call env self prompt (some stop) kwargs).result =
      .ok (.str (enforce_stop_tokens T stop)) := by
    rw [call_success_eval env self prompt (some stop) kwargs fields dataFields
      c0Fields rest (.str T) txt hz hk hh hd hc hcont]
    rfl
  constructor
  · intro hocc
    obtain ⟨j, hj, hjocc, hjmin⟩ := enforce_stop_tokens_found T stop hocc
    exact ⟨j, by rw [hres, hj], hjocc, hjmin⟩
  · intro hno
    rw [hres, enforce_stop_tokens_not_found T stop hno]

/-- Witness for C4: content `"I am a model."`, stop `["am"]`; the
marker occurs, and the returned text is `"I "`. -/
theorem stop_marker_truncation_witness :
    (∃ j, (ChatGLM.call goodEnv sampleClient "Who are you?"
          (some ["am"]) []).result =
        .ok (.str (String.mk ("I am a model.".data.take j))) ∧
      (∃ m ∈ ["am"], occursAt "I am a model." m j) ∧
      ∀ k < j, ∀ m ∈ ["am"], ¬ occursAt "I am a model." m k) ∧
    (ChatGLM.call goodEnv sampleClient "Who are you?"
        (some ["am"]) []).result = .ok (.str "I ") := by
  constructor
  · exact (stop_marker_truncation goodEnv sampleClient "Who are you?" []
      ["am"]
      [("data", .obj [("choices", .arr [.obj [("content", .str "I am a model.")]])])]
      [("choices", .arr [.obj [("content", .str "I am a model.")]])]
      [("content", .str "I am a model.")]
      [] "I am a model." "raw" rfl (by decide) rfl rfl rfl rfl).1
      ⟨"am", by decide, 2, rfl⟩
  · rfl

/-! ## History tracking (lines 146-147) -/


theorem extractText_obj (fields : List (String × JValue)) :
    extractText (.obj fields) =
      match dictGet fields "data" with
      | some dataV =>
          match pyIndexStr dataV "choices" with
          | .error e => .error e
          | .ok choicesV =>
              match pyIndexNat choicesV 0 with
              | .error e => .error e
              | .ok c0 =>
                  match pyIndexStr c0 "content" with
                  | .error e => .error e
                  | .ok contentV => .ok (choicesV, contentV)
      | none => .error .noContent := rfl

theorem extractText_ok (parsed choicesV contentV : JValue)
    (h : extractText parsed = .ok (choicesV, contentV)) :
    ∃ fields dataV, parsed = .obj fields ∧
      dictGet fields "data" = some dataV ∧
      pyIndexStr dataV "choices" = .ok choicesV := by
  unfold extractText at h
  repeat' split at h
  all_goals cases h
  all_goals exact ⟨_, _, rfl, by assumption, by assumption⟩

/-- A call that returns normally appends `[null, choices]` to the
history exactly when `with_history` is set, and changes nothing else. -/
theorem call_ok_state (env : Env) (self : ChatGLM) (prompt : String)
    (stop : Option (List String)) (kwargs : List (String × JValue))
    (v : JValue)
    (hok : (ChatGLM.call env self prompt stop kwargs).result = .ok v) :
    ∃ c, respChoices env = some c ∧
      (ChatGLM.call env self prompt stop kwargs).state =
        (if self.with_history then
          { self with history := self.history ++ [.arr [.null, c]] }
         else self) := by
  obtain ⟨za, http⟩ := env
  cases za with
  | false => simp [ChatGLM.call] at hok
  | true =>
    by_cases hk : self.api_key = ""
    · simp [ChatGLM.call, hk] at hok
    · cases http with
      | requestException => simp [ChatGLM.call, hk] at hok
      | ok status json text =>
        by_cases hs : status = 200
        · subst hs
          cases json with
          | none => simp [ChatGLM.call, hk] at hok
          | some parsed =>
            cases hext : extractText parsed with
            | error e => simp [ChatGLM.call, hk, hext] at hok
            | ok pr =>
              obtain ⟨choicesV, contentV⟩ := pr
              cases hstop : applyStop contentV stop with
              | error e => simp [ChatGLM.call, hk, hext, hstop] at hok
              | ok t =>
                refine ⟨choicesV, ?_, ?_⟩
                · obtain ⟨fields, dataV, hpf, hdf, hcf⟩ :=
                    extractText_ok parsed choicesV contentV hext
                  subst hpf
                  simp [respChoices, hdf, hcf]
                · cases hw : self.with_history with
                  | true => simp [ChatGLM.call, hk, hext, hstop, hw]
                  | false => simp [ChatGLM.call, hk, hext, hstop, hw]
        · simp [ChatGLM.call, hk, hs] at hok

/-- Every call either leaves the client untouched or returned normally
with `with_history` set. -/
theorem call_state_self_or_ok (env : Env) (self : ChatGLM) (prompt : String)
    (stop : Option (List String)) (kwargs : List (String × JValue)) :
    (ChatGLM.call env self prompt stop kwargs).state = self ∨
    (self.with_history = true ∧
      ∃ v, (ChatGLM.call env self prompt stop kwargs).result = .ok v) := by
  unfold ChatGLM.call
  repeat' split
  all_goals first
  | exact Or.inl rfl
  | exact Or.inr ⟨by assumption, _, rfl⟩

/-- The run-level history invariant over any starting history. -/
theorem runCalls_history (self : ChatGLM) (l : List (Env × String))
    (hw : self.with_history = true) (hs : allOk self l = true) :
    (runCalls self l).history =
      self.history ++
        l.map (fun ep => JValue.arr [.null, (respChoices ep.1).getD .null]) ∧
    ∀ ep ∈ l, (respChoices ep.1).isSome = true := by
  induction l generalizing self with
  | nil => simp [runCalls]
  | cons ep rest ih =>
    obtain ⟨e, p⟩ := ep
    unfold allOk at hs
    rw [Bool.and_eq_true] at hs
    obtain ⟨hok, hrest⟩ := hs
    have hv : ∃ v, (ChatGLM.call e self p none []).result = .ok v := by
      cases hres : (ChatGLM.call e self p none []).result with
      | ok v => exact ⟨v, rfl⟩
      | error e' => rw [hres] at hok; cases hok
    obtain ⟨v, hres⟩ := hv
    obtain ⟨c, hc, hstate⟩ := call_ok_state e self p none [] v hres
    rw [hw, if_pos rfl] at hstate
    have hw' : (ChatGLM.call e self p none []).state.with_history = true := by
      rw [hstate]
    obtain ⟨ih1, ih2⟩ := ih ((ChatGLM.call e self p none []).state) hw' hrest
    constructor
    · show (runCalls (ChatGLM.call e self p none []).state rest).history = _
      rw [ih1, hstate]
      simp [hc]
    · intro ep' hep'
      rcases List.mem_cons.mp hep' with h1 | h1
      · rw [h1]
        simp [hc]
      · exact ih2 ep' h1

/-- C5: starting from an empty history with `with_history` set, a run
of N successful calls leaves a history of length N whose k-th entry is
`[null, choices_k]` for the k-th call's raw choices array; the history
is untouched when `with_history` is unset, and untouched by any call
that raises. -/
theorem history_growth (self : ChatGLM) (l : List (Env × String))
    (hw : self.with_history = true) (h0 : self.history = [])
    (hs : allOk self l = true) :
    (runCalls self l).history =
      l.map (fun ep => JValue.arr [.null, (respChoices ep.1).getD .null]) ∧
    (runCalls self l).history.length = l.length ∧
    (∀ ep ∈ l, (respChoices ep.1).isSome = true) ∧
    (∀ (s : ChatGLM) (e : Env) (p : String) (st : Option (List String))
        (kw : List (String × JValue)),
      s.with_history = false → (ChatGLM.call e s p st kw).state = s) ∧
    (∀ (s : ChatGLM) (e : Env) (p : String) (st : Option (List String))
        (kw : List (String × JValue)) (err : PyError),
      (ChatGLM.call e s p st kw).result = .error err →
      (ChatGLM.call e s p st kw).state = s) := by
  obtain ⟨hh, hsome⟩ := runCalls_history self l hw hs
  rw [h0] at hh
  have h1 : (runCalls self l).history =
      l.map (fun ep => JValue.arr [.null, (respChoices ep.1).getD .null]) := by
    simpa using hh
  refine ⟨h1, by rw [h1]; simp, hsome, ?_, ?_⟩
  · intro s e p st kw hwf
    rcases call_state_self_or_ok e s p st kw with h | h
    · exact h
    · rw [hwf] at h
      cases h.1
  · intro s e p st kw err hres
    rcases call_state_self_or_ok e s p st kw with h | h
    · exact h
    · obtain ⟨_, v, hv⟩ := h
      rw [hres] at hv
      cases hv

/-- Witness for C5: two successful calls against `goodEnv` leave
exactly two history entries, each `[null, raw choices]`. -/
theorem history_growth_witness :
    (runCalls histClient [(goodEnv, "q1"), (goodEnv, "q2")]).history =
      [.arr [.null, .arr [.obj [("content", .str "I am a model.")]]],
       .arr [.null, .arr [.obj [("content", .str "I am a model.")]]]] ∧
    (runCalls histClient [(goodEnv, "q1"), (goodEnv, "q2")]).history.length
      = 2 := by
  have h := history_growth histClient [(goodEnv, "q1"), (goodEnv, "q2")]
    rfl rfl rfl
  refine ⟨?_, ?_⟩
  · rw [h.1]
    rfl
  · rw [h.2.1]
    rfl

/-- Lookup through `d.update(e)` for a key `e` does not carry falls
through to `d`. -/
theorem dictGet_dictUpdate_not_mem (d e : List (String × JValue))
    (k : String) (hk : dictGet e k = none) :
    dictGet (dictUpdate d e) k = dictGet d k := by
  induction e generalizing d with
  | nil => rfl
  | cons p rest ih =>
    rw [dictGet_cons] at hk
    by_cases hp : p.1 = k
    · rw [if_pos hp] at hk
      cases hk
    · rw [if_neg hp] at hk
      have hstep : dictUpdate d (p :: rest) =
          dictUpdate (dictSet d p.1 p.2) rest := rfl
      rw [hstep, ih _ hk,
        dictGet_dictSet_ne d p.1 k p.2 (fun hh => hp hh.symm)]

/-- C9: the `history` field of any payload a call posts is the client's
history as it was before the call — the post-call append (line 147)
never feeds a call's own response into its own request — provided
neither `model_kwargs` nor the per-call kwargs override the `history`
key. -/
theorem payload_history_is_precall (env : Env) (self : ChatGLM)
    (prompt : String) (stop : Option (List String))
    (kwargs : List (String × JValue)) (pl : List (String × JValue))
    (hmk : dictGet (self.model_kwargs.getD []) "history" = none)
    (hkw : dictGet kwargs "history" = none)
    (hposted : (ChatGLM.call env self prompt stop kwargs).posted = some pl) :
    dictGet pl "history" = some (.arr self.history) := by
  have hpl : pl = buildPayload self prompt kwargs := by
    rcases call_posted_eq env self prompt stop kwargs with h | h
    · rw [h] at hposted
      exact absurd hposted (by simp)
    · rw [h] at hposted
      exact (Option.some_injective _ hposted).symm
  subst hpl
  unfold buildPayload
  rw [dictGet_dictUpdate_not_mem _ kwargs "history" hkw,
    dictGet_dictUpdate_not_mem _ (self.model_kwargs.getD []) "history" hmk]
  rfl

/-- Witness for C9 at `mergeClient` (whose `model_kwargs` does not
carry `history`): the posted `history` field is the pre-call history. -/
theorem payload_history_is_precall_witness :
    dictGet (buildPayload mergeClient "p" []) "history" =
      some (.arr mergeClient.history) :=
  payload_history_is_precall goodEnv mergeClient "p" none [] _ rfl rfl rfl
